import Mathlib

/-!
Verification development for the rust_keymacro input macro engine.

The definitions below are a shallow embedding of the Rust sources:
`src/macros/handler.rs` (event classifier and executor thread),
`src/macros/mod.rs` (shared engine state accessors),
`src/macros.rs` (type-text / sequence interpreters consistent with
`src/config.rs`), `src/winapi/keyboard.rs` (key synthesis and hook
helpers) and `src/gamepad/mod.rs` (gamepad polling and bit diffing).

Machine integers are modelled as `Nat` (with explicit `% 2^w` where the
source casts), fallible operations return an explicit error component,
sleeping and key injection are recorded in an event trace, and the
success of each `SendInput` call is supplied by an oracle indexed by the
number of injection calls made so far.
-/

/-- Execution phase of the macro engine (`MacroPhase` in handler.rs). -/
inductive MacroPhase
  | idle
  | executing
deriving DecidableEq, Repr

/-- Channel event consumed by the executor thread (`MacroEvent` in handler.rs). -/
inductive MacroEvent
  | hotkeyPressed (key_name : String)
  | hotkeyReleased (key_name : String)
  | gamepadButtonPressed (button : String)
  | gamepadButtonReleased (button : String)
deriving DecidableEq, Repr

/-- Observable effect of the interpreters: an injected key transition or a sleep. -/
inductive SynthEvent
  | keyDown (vk : Nat)
  | keyUp (vk : Nat)
  | sleep (ms : Nat)
deriving DecidableEq, Repr

/-- Runtime errors of the executor (`Box<dyn Error>` payloads in the source). -/
inductive Err
  | unsupportedCharacter
  | injectionFailed
  | configMissing
  | hotkeyNotFound
  | unknownActionType
deriving DecidableEq, Repr

/-- `KeyAction` from config.rs. -/
inductive KeyAction
  | press
  | release
  | complete
deriving DecidableEq, Repr

/-- `Step` from config.rs. -/
inductive Step
  | key (value : String) (delay : Option Nat) (action : Option KeyAction)
  | wait (value : Nat)
  | text (value : String) (delay : Option Nat)
deriving DecidableEq, Repr

/-- `TypeTextParams` from config.rs: a text plus an optional speed preset. -/
structure TypeTextParams where
  text : String
  speed : Option String
deriving DecidableEq, Repr

/-- `SequenceParams` from config.rs. -/
structure SequenceParams where
  steps : List Step
deriving DecidableEq, Repr

/-- `ActionParams` from config.rs. -/
inductive ActionParams
  | typeText (p : TypeTextParams)
  | sequence (p : SequenceParams)
deriving DecidableEq, Repr

/-- `HotkeyConfig` from config.rs. -/
structure HotkeyConfig where
  key : String
  action : String
  params : ActionParams
deriving DecidableEq, Repr

/-- `Config` from config.rs. -/
structure Config where
  hotkeys : List HotkeyConfig
deriving DecidableEq, Repr

/-- ASCII lower-casing of one character, as Rust `u8::to_ascii_lowercase`. -/
def asciiLower (c : Char) : Char :=
  if 65 ≤ c.toNat ∧ c.toNat ≤ 90 then Char.ofNat (c.toNat + 32) else c

/-- ASCII upper-casing of one character, as Rust `u8::to_ascii_uppercase`. -/
def asciiUpper (c : Char) : Char :=
  if 97 ≤ c.toNat ∧ c.toNat ≤ 122 then Char.ofNat (c.toNat - 32) else c

/-- Rust `str::eq_ignore_ascii_case`: equal length and pointwise
ASCII-case-insensitive equality. -/
def eq_ignore_ascii_case (a b : String) : Bool :=
  a.data.map asciiLower == b.data.map asciiLower

/-- Rust `str::to_uppercase`, restricted to its ASCII behaviour (the key
names the program compares are ASCII). -/
def to_uppercase (s : String) : String :=
  String.mk (s.data.map asciiUpper)

/-- `Config::find_hotkey` from config.rs: first hotkey whose key matches
case-insensitively. -/
def Config.find_hotkey (c : Config) (key : String) : Option HotkeyConfig :=
  c.hotkeys.find? (fun h => eq_ignore_ascii_case h.key key)

/-- `char_to_vk` from macros.rs / macros/executor.rs (identical in both):
maps ASCII letters, digits, space, CR, LF and tab to virtual key codes. -/
def char_to_vk (ch : Char) : Option Nat :=
  if 97 ≤ ch.toNat ∧ ch.toNat ≤ 122 then some (ch.toNat - 97 + 0x41)
  else if 65 ≤ ch.toNat ∧ ch.toNat ≤ 90 then some (ch.toNat - 65 + 0x41)
  else if 48 ≤ ch.toNat ∧ ch.toNat ≤ 57 then some (ch.toNat - 48 + 0x30)
  else if ch.toNat = 32 then some 0x20
  else if ch.toNat = 13 ∨ ch.toNat = 10 then some 0x0D
  else if ch.toNat = 9 then some 0x09
  else none

/-- `parse_key_string` from macros.rs / macros/executor.rs (identical in
both): resolves a symbolic key name, after upper-casing, to a virtual
key code. -/
def parse_key_string (key : String) : Option Nat :=
  let s := to_uppercase key
  if s = "A" then some 0x41
  else if s = "B" then some 0x42
  else if s = "C" then some 0x43
  else if s = "D" then some 0x44
  else if s = "E" then some 0x45
  else if s = "F" then some 0x46
  else if s = "G" then some 0x47
  else if s = "H" then some 0x48
  else if s = "I" then some 0x49
  else if s = "J" then some 0x4A
  else if s = "K" then some 0x4B
  else if s = "L" then some 0x4C
  else if s = "M" then some 0x4D
  else if s = "N" then some 0x4E
  else if s = "O" then some 0x4F
  else if s = "P" then some 0x50
  else if s = "Q" then some 0x51
  else if s = "R" then some 0x52
  else if s = "S" then some 0x53
  else if s = "T" then some 0x54
  else if s = "U" then some 0x55
  else if s = "V" then some 0x56
  else if s = "W" then some 0x57
  else if s = "X" then some 0x58
  else if s = "Y" then some 0x59
  else if s = "Z" then some 0x5A
  else if s.length = 1 ∧ 48 ≤ (s.data.headD (Char.ofNat 0)).toNat ∧
      (s.data.headD (Char.ofNat 0)).toNat ≤ 57 then
    some ((s.data.headD (Char.ofNat 0)).toNat - 48 + 0x30)
  else if s = "SPACE" ∨ s = "Space" then some 0x20
  else if s = "ENTER" ∨ s = "Enter" then some 0x0D
  else if s = "TAB" ∨ s = "Tab" then some 0x09
  else if s = "BACKSPACE" ∨ s = "Backspace" then some 0x08
  else if s = "ESC" ∨ s = "Escape" then some 0x1B
  else if s = "SHIFT" ∨ s = "Shift" then some 0x10
  else if s = "CTRL" ∨ s = "Ctrl" then some 0x11
  else if s = "ALT" ∨ s = "Alt" then some 0x12
  else none

/-- Character delay selected by the speed preset in `execute_type_text`
(macros.rs lines 198-204). -/
def char_delay (speed : Option String) : Nat :=
  match speed with
  | some "fastest" => 5
  | some "fast" => 10
  | some "normal" => 20
  | some "slow" => 50
  | _ => 10

/-- The all-successful injection oracle: every `SendInput` call succeeds. -/
def oracleTrue : Nat → Bool := fun _ => true

/-- Injection oracle whose very first call fails. -/
def oracleFailFirst : Nat → Bool := fun i => decide (0 < i)

/-- The character loop of `execute_type_text` (macros.rs lines 207-217):
press, sleep, release, sleep per mapped character; an unmapped character
falls to `simulate_unicode_char`, which always errors, and `?` propagates
that error, stopping the loop.  `idx` counts injection calls made so far;
the oracle decides the success of each call. -/
def type_chars (oracle : Nat → Bool) (d : Nat) : Nat → List Char → List SynthEvent × Nat × Option Err
  | idx, [] => ([], idx, none)
  | idx, c :: rest =>
    match char_to_vk c with
    | some vk =>
      if oracle idx then
        if oracle (idx + 1) then
          let r := type_chars oracle d (idx + 2) rest
          (SynthEvent.keyDown vk :: SynthEvent.sleep d :: SynthEvent.keyUp vk ::
            SynthEvent.sleep d :: r.1, r.2.1, r.2.2)
        else ([SynthEvent.keyDown vk, SynthEvent.sleep d], idx + 2, some Err.injectionFailed)
      else ([], idx + 1, some Err.injectionFailed)
    | none => ([], idx, some Err.unsupportedCharacter)

/-- `execute_type_text` from macros.rs (lines 196-220): the speed preset
fixes the per-character delay; the text is typed by `type_chars`. -/
def execute_type_text (oracle : Nat → Bool) (p : TypeTextParams) : List SynthEvent × Option Err :=
  let r := type_chars oracle (char_delay p.speed) 0 p.text.data
  (r.1, r.2.2)

/-- Sleep trace of `if let Some(d) = delay { thread::sleep(..) }`. -/
def delay_sleep : Option Nat → List SynthEvent
  | some d => [SynthEvent.sleep d]
  | none => []

/-- The character loop of a `Step::Text` inside `execute_sequence`
(macros.rs lines 256-267): press, optional sleep, release per mapped
character; an unmapped character errors through `simulate_unicode_char`
and `?` aborts the loop. -/
def text_chars (oracle : Nat → Bool) (d : Option Nat) : Nat → List Char → List SynthEvent × Nat × Option Err
  | idx, [] => ([], idx, none)
  | idx, c :: rest =>
    match char_to_vk c with
    | some vk =>
      if oracle idx then
        if oracle (idx + 1) then
          let r := text_chars oracle d (idx + 2) rest
          ((SynthEvent.keyDown vk :: delay_sleep d) ++ SynthEvent.keyUp vk :: r.1,
            r.2.1, r.2.2)
        else (SynthEvent.keyDown vk :: delay_sleep d, idx + 2, some Err.injectionFailed)
      else ([], idx + 1, some Err.injectionFailed)
    | none => ([], idx, some Err.unsupportedCharacter)

/-- One iteration of the `execute_sequence` loop (macros.rs lines 224-269):
a `Key` step resolves its name (an unresolvable name is skipped silently)
and synthesizes per its action with the optional delay slept where the
source sleeps it; `Wait` sleeps; `Text` runs its character loop. -/
def run_step (oracle : Nat → Bool) (idx : Nat) : Step → List SynthEvent × Nat × Option Err
  | Step.key v d a =>
    match parse_key_string v with
    | none => ([], idx, none)
    | some vk =>
      match a.getD KeyAction.complete with
      | KeyAction.press =>
        if oracle idx then (SynthEvent.keyDown vk :: delay_sleep d, idx + 1, none)
        else ([], idx + 1, some Err.injectionFailed)
      | KeyAction.release =>
        if oracle idx then (SynthEvent.keyUp vk :: delay_sleep d, idx + 1, none)
        else ([], idx + 1, some Err.injectionFailed)
      | KeyAction.complete =>
        if oracle idx then
          if oracle (idx + 1) then
            ((SynthEvent.keyDown vk :: delay_sleep d) ++ [SynthEvent.keyUp vk], idx + 2, none)
          else (SynthEvent.keyDown vk :: delay_sleep d, idx + 2, some Err.injectionFailed)
        else ([], idx + 1, some Err.injectionFailed)
  | Step.wait v => ([SynthEvent.sleep v], idx, none)
  | Step.text v d => text_chars oracle d idx v.data

/-- The step loop of `execute_sequence`: steps run in list order; the
first error (propagated by `?` in the source) stops the loop, keeping the
effects already performed. -/
def run_steps (oracle : Nat → Bool) : Nat → List Step → List SynthEvent × Nat × Option Err
  | idx, [] => ([], idx, none)
  | idx, s :: rest =>
    let r1 := run_step oracle idx s
    match r1.2.2 with
    | some e => (r1.1, r1.2.1, some e)
    | none =>
      let r2 := run_steps oracle r1.2.1 rest
      (r1.1 ++ r2.1, r2.2.1, r2.2.2)

/-- `execute_sequence` from macros.rs (lines 223-273). -/
def execute_sequence (oracle : Nat → Bool) (p : SequenceParams) : List SynthEvent × Option Err :=
  let r := run_steps oracle 0 p.steps
  (r.1, r.2.2)

/-- Engine state owned by the executor thread: the phase and the loaded
config snapshot (`MACRO_PHASE` / `CONFIG` in macros/mod.rs). -/
structure EngineState where
  phase : MacroPhase
  config : Option Config
deriving DecidableEq, Repr

/-- `execute_hotkey_action` from macros/handler.rs (lines 107-153): test
the phase, set it to Executing when Idle (dropping silently otherwise),
then resolve the hotkey against the config and dispatch by action kind.
The returned trace lists the key events and sleeps performed. -/
def execute_hotkey_action (oracle : Nat → Bool) (st : EngineState) (key_name : String) :
    EngineState × List SynthEvent × Option Err :=
  if st.phase = MacroPhase.idle then
    let st2 : EngineState := { st with phase := MacroPhase.executing }
    match st.config with
    | none => (st2, [], some Err.configMissing)
    | some cfg =>
      match cfg.find_hotkey key_name with
      | none => (st2, [], some Err.hotkeyNotFound)
      | some hc =>
        if hc.action = "type_text" then
          match hc.params with
          | ActionParams.typeText p =>
            let r := execute_type_text oracle p
            (st2, r.1, r.2)
          | _ => (st2, [], none)
        else if hc.action = "sequence" then
          match hc.params with
          | ActionParams.sequence p =>
            let r := execute_sequence oracle p
            (st2, r.1, r.2)
          | _ => (st2, [], none)
        else (st2, [], some Err.unknownActionType)
  else (st, [], none)

/-- `execute_hotkey_release` from macros/handler.rs (lines 156-175): set
the phase back to Idle when Executing, dropping silently otherwise; the
key name is ignored and nothing is synthesized. -/
def execute_hotkey_release (st : EngineState) : EngineState × List SynthEvent :=
  if st.phase = MacroPhase.executing then ({ st with phase := MacroPhase.idle }, [])
  else (st, [])

/-- One iteration of the executor thread loop in `start_macro_thread`
(macros/handler.rs lines 43-77): read the toggle; when disabled the event
is discarded entirely, otherwise dispatch, prefixing gamepad buttons with
"GP:". -/
def macroThreadStep (oracle : Nat → Bool) (toggle : Bool) (st : EngineState) :
    MacroEvent → EngineState × List SynthEvent
  | MacroEvent.hotkeyPressed k =>
    if toggle then
      let r := execute_hotkey_action oracle st k
      (r.1, r.2.1)
    else (st, [])
  | MacroEvent.hotkeyReleased _ =>
    if toggle then execute_hotkey_release st else (st, [])
  | MacroEvent.gamepadButtonPressed b =>
    if toggle then
      let r := execute_hotkey_action oracle st ("GP:" ++ b)
      (r.1, r.2.1)
    else (st, [])
  | MacroEvent.gamepadButtonReleased _ =>
    if toggle then execute_hotkey_release st else (st, [])

/-- Run of the executor thread over a queue of events, each dequeued
under the toggle value read at that moment. -/
def runEvents (oracle : Nat → Bool) : List (Bool × MacroEvent) → EngineState → EngineState
  | [], st => st
  | (tg, ev) :: rest, st => runEvents oracle rest (macroThreadStep oracle tg st ev).1

/-- Fine-grained action on the shared phase cell, as performed through the
accessors of macros/mod.rs: each accessor acquires the `MACRO_PHASE` lock,
reads or writes, and releases it.  `synth` marks a key-synthesis effect. -/
inductive EngineAct
  | lockPhase
  | readPhase (p : MacroPhase)
  | writePhase (p : MacroPhase)
  | unlockPhase
  | synth (e : SynthEvent)
deriving DecidableEq, Repr

/-- Lock-level trace of `get_macro_phase` (macros/mod.rs lines 95-97). -/
def get_macro_phase_trace (p : MacroPhase) : List EngineAct :=
  [EngineAct.lockPhase, EngineAct.readPhase p, EngineAct.unlockPhase]

/-- Lock-level trace of `set_macro_phase` (macros/mod.rs lines 99-103). -/
def set_macro_phase_trace (p : MacroPhase) : List EngineAct :=
  [EngineAct.lockPhase, EngineAct.writePhase p, EngineAct.unlockPhase]

/-- Lock-level trace of `execute_hotkey_action` (handler.rs lines 108-121):
one locked read of the phase, then — only when it was Idle — a separate
locked write of Executing, followed by the synthesis effects of the
dispatched action. -/
def execute_hotkey_action_fineTrace (oracle : Nat → Bool) (st : EngineState) (key_name : String) :
    List EngineAct :=
  get_macro_phase_trace st.phase ++
    (if st.phase = MacroPhase.idle then
      set_macro_phase_trace MacroPhase.executing ++
        ((execute_hotkey_action oracle st key_name).2.1.map EngineAct.synth)
    else [])

/-- Whether an action is a key-synthesis effect. -/
def EngineAct.isSynth : EngineAct → Bool
  | EngineAct.synth _ => true
  | _ => false

/-- Whether an action is a phase read. -/
def EngineAct.isRead : EngineAct → Bool
  | EngineAct.readPhase _ => true
  | _ => false

/-- Whether an action is a phase write. -/
def EngineAct.isWrite : EngineAct → Bool
  | EngineAct.writePhase _ => true
  | _ => false

/-- The phase test and the phase transition form one atomic section: for
all positions `i < k < j`, if position `i` is a read of the phase and
position `j` is a write of the phase, position `k` is not a lock release
— so no other access of the phase cell can interleave between the test
and the set. -/
def testAndSetAtomic (tr : List EngineAct) : Bool :=
  (List.range tr.length).all fun i =>
    (List.range tr.length).all fun j =>
      (List.range tr.length).all fun k =>
        !(decide (i < k) && decide (k < j) && (tr.getD i EngineAct.lockPhase).isRead &&
            (tr.getD j EngineAct.lockPhase).isWrite) ||
          !(tr.getD k EngineAct.lockPhase == EngineAct.unlockPhase)

/-- The phase is written to Executing before any synthesis: scanning the
trace up to the first synthesis effect already encounters the write. -/
abbrev phaseSetBeforeSynth (tr : List EngineAct) : Prop :=
  EngineAct.writePhase MacroPhase.executing ∈ tr.takeWhile (fun a => ! a.isSynth)

/-- Model of an `INPUT` record as filled by `simulate_key`
(winapi/keyboard.rs lines 65-102).  The scan code returned by
`MapVirtualKeyW` is supplied by an oracle. -/
structure KeyInput where
  inputType : Nat
  wVk : Nat
  wScan : Nat
  dwFlags : Nat
  time : Nat
  dwExtraInfo : Nat
deriving DecidableEq, Repr

/-- `KeyEventType` from winapi/keyboard.rs. -/
inductive KeyEventType
  | press
  | release
deriving DecidableEq, Repr

/-- `simulate_key` from winapi/keyboard.rs: builds the injected `INPUT`
record; `KEYEVENTF_SCANCODE = 0x8`, `KEYEVENTF_KEYUP = 0x2`,
`INPUT_KEYBOARD = 1`; the auxiliary field always carries `0x12345678`. -/
def simulate_key (scanOf : Nat → Nat) (vk : Nat) (et : KeyEventType) : KeyInput :=
  let scan := scanOf vk
  let flags :=
    match et with
    | KeyEventType.press => if scan ≠ 0 then 0x8 else 0
    | KeyEventType.release => if scan ≠ 0 then 0x2 ||| 0x8 else 0x2
  { inputType := 1, wVk := vk % 65536, wScan := scan % 65536, dwFlags := flags,
    time := 0, dwExtraInfo := 0x12345678 }

/-- `is_key_down` from winapi/keyboard.rs: the wparam, cast to u32, is
`WM_KEYDOWN = 0x0100`. -/
def is_key_down (wparam : Nat) : Bool :=
  wparam % 4294967296 == 0x0100

/-- `is_key_up` from winapi/keyboard.rs: the wparam, cast to u32, is
`WM_KEYUP = 0x0101`. -/
def is_key_up (wparam : Nat) : Bool :=
  wparam % 4294967296 == 0x0101

/-- `is_key_repeat` from winapi/keyboard.rs: bit `0x0001` of the hook
struct flags. -/
def is_key_repeat (flags : Nat) : Bool :=
  (flags &&& 1) != 0

/-- Decision of the hook callback: pass the event on to the next hook, or
swallow it by returning `LRESULT(1)`. -/
inductive HookDecision
  | passEvent
  | blockEvent
deriving DecidableEq, Repr

/-- `vk_to_key_name` from macros/handler.rs (lines 242-287). -/
def vk_to_key_name (vk : Nat) : String :=
  if vk = 0x41 then "A"
  else if vk = 0x42 then "B"
  else if vk = 0x43 then "C"
  else if vk = 0x44 then "D"
  else if vk = 0x45 then "E"
  else if vk = 0x46 then "F"
  else if vk = 0x47 then "G"
  else if vk = 0x48 then "H"
  else if vk = 0x49 then "I"
  else if vk = 0x4A then "J"
  else if vk = 0x4B then "K"
  else if vk = 0x4C then "L"
  else if vk = 0x4D then "M"
  else if vk = 0x4E then "N"
  else if vk = 0x4F then "O"
  else if vk = 0x50 then "P"
  else if vk = 0x51 then "Q"
  else if vk = 0x52 then "R"
  else if vk = 0x53 then "S"
  else if vk = 0x54 then "T"
  else if vk = 0x55 then "U"
  else if vk = 0x56 then "V"
  else if vk = 0x57 then "W"
  else if vk = 0x58 then "X"
  else if vk = 0x59 then "Y"
  else if vk = 0x5A then "Z"
  else if 0x30 ≤ vk ∧ vk ≤ 0x39 then toString (vk - 0x30)
  else if 0x60 ≤ vk ∧ vk ≤ 0x69 then "Numpad" ++ toString (vk - 0x60)
  else if 0x70 ≤ vk ∧ vk ≤ 0x87 then "F" ++ toString (vk - 0x6F)
  else if vk = 0xC0 then "`"
  else if vk = 0xDE then String.mk [Char.ofNat 39]
  else if vk = 0x20 then "Space"
  else if vk = 0x0D then "Enter"
  else if vk = 0x09 then "Tab"
  else if vk = 0x08 then "Backspace"
  else if vk = 0x1B then "Escape"
  else if vk = 0x10 then "Shift"
  else if vk = 0x11 then "Ctrl"
  else if vk = 0x12 then "Alt"
  else "VK_" ++ String.mk ((Nat.toDigits 16 vk).map asciiUpper)

/-- `keyboard_hook_proc` from macros/handler.rs (lines 180-239): the event
classifier run inside the hook callback.  Inputs are the hook code, the
wparam, the hook-struct flags and `dwExtraInfo`, the virtual key, and the
shared toggle / config / phase values read through the accessors.  The
result is the pass/swallow decision and the optionally emitted event. -/
def keyboard_hook_proc (code : Int) (wparam : Nat) (flags : Nat) (extraInfo : Nat) (vk : Nat)
    (toggle : Bool) (config : Option Config) (phase : MacroPhase) :
    HookDecision × Option MacroEvent :=
  if 0 ≤ code then
    if extraInfo = 0x12345678 then (HookDecision.passEvent, none)
    else if toggle then
      match config with
      | some cfg =>
        let key_name := vk_to_key_name vk
        match cfg.find_hotkey key_name with
        | some _ =>
          if is_key_down wparam then
            if is_key_repeat flags then (HookDecision.passEvent, none)
            else if phase ≠ MacroPhase.idle then (HookDecision.blockEvent, none)
            else (HookDecision.blockEvent, some (MacroEvent.hotkeyPressed key_name))
          else if is_key_up wparam then
            (HookDecision.blockEvent,
              if phase = MacroPhase.executing then some (MacroEvent.hotkeyReleased key_name)
              else none)
          else (HookDecision.passEvent, none)
        | none => (HookDecision.passEvent, none)
      | none => (HookDecision.passEvent, none)
    else (HookDecision.passEvent, none)
  else (HookDecision.passEvent, none)

/-- Gamepad event produced by the poller (`GamepadEvent` in gamepad/mod.rs). -/
inductive GamepadEvent
  | buttonPressed (button : String)
  | buttonReleased (button : String)
deriving DecidableEq, Repr

/-- The 14 XInput button masks and names of `check_button_changes`
(gamepad/mod.rs lines 99-114). -/
def xbox_buttons : List (Nat × String) :=
  [(0x0001, "DUp"), (0x0002, "DDown"), (0x0004, "DLeft"), (0x0008, "DRight"),
   (0x0010, "Start"), (0x0020, "Back"), (0x0040, "LS"), (0x0080, "RS"),
   (0x0100, "LB"), (0x0200, "RB"), (0x1000, "A"), (0x2000, "B"),
   (0x4000, "X"), (0x8000, "Y")]

/-- The per-button loop of `check_button_changes` (gamepad/mod.rs lines
116-136): for every listed mask whose bit changed, emit Pressed when the
bit is set in `current`, Released otherwise. -/
def emit_for (current changed : Nat) : List (Nat × String) → List GamepadEvent
  | [] => []
  | bn :: rest =>
    (if changed &&& bn.1 ≠ 0 then
      (if current &&& bn.1 ≠ 0 then [GamepadEvent.buttonPressed bn.2]
       else [GamepadEvent.buttonReleased bn.2])
     else []) ++ emit_for current changed rest

/-- `check_button_changes` from gamepad/mod.rs. -/
def check_button_changes (current changed : Nat) : List GamepadEvent :=
  emit_for current changed xbox_buttons

/-- One poll tick for one slot (gamepad/mod.rs lines 47-79): when the
query succeeds the slot is marked connected and the stored mask is diffed
against the current buttons (the stored mask is updated only when a
change exists); when it fails the slot is marked disconnected and, on the
disconnect transition, the stored mask is reset.  Returns the new
connected flag, the new stored mask and the emitted events. -/
def poll_slot (connected : Bool) (prev : Nat) (query : Option Nat) :
    Bool × Nat × List GamepadEvent :=
  match query with
  | some current =>
    let changed := current ^^^ prev
    if changed ≠ 0 then (true, current, check_button_changes current changed)
    else (true, prev, [])
  | none =>
    if connected then (false, 0, []) else (false, prev, [])

/-- Name carried by a gamepad event. -/
def GamepadEvent.name : GamepadEvent → String
  | GamepadEvent.buttonPressed n => n
  | GamepadEvent.buttonReleased n => n

/-- Claim C3: every synthetic input event built by `simulate_key` carries
the sentinel tag `0x12345678` in its auxiliary field, and the classifier
passes through, with no emission, every hook event carrying that tag,
regardless of hook code, message, flags, key, toggle, config and phase. -/
theorem c3_sentinel_guard :
    (∀ (scanOf : Nat → Nat) (vk : Nat) (et : KeyEventType),
      (simulate_key scanOf vk et).dwExtraInfo = 0x12345678) ∧
    (∀ (code : Int) (wparam flags vk : Nat) (toggle : Bool) (config : Option Config)
      (phase : MacroPhase),
      keyboard_hook_proc code wparam flags 0x12345678 vk toggle config phase =
        (HookDecision.passEvent, none)) := by
  constructor
  · intro scanOf vk et
    rfl
  · intro code wparam flags vk toggle config phase
    unfold keyboard_hook_proc
    split <;> simp

/-- Claim C10: an event dequeued while the toggle is false is discarded
entirely — no synthesis, engine state unchanged, for Released events as
well; hence the phase survives any run of events dequeued under a false
toggle, and a Released event dequeued under a true toggle while the phase
is Executing resets it to Idle. -/
theorem c10_toggle_off_discards :
    (∀ (oracle : Nat → Bool) (st : EngineState) (ev : MacroEvent),
      macroThreadStep oracle false st ev = (st, [])) ∧
    (∀ (oracle : Nat → Bool) (evs : List MacroEvent) (st : EngineState),
      runEvents oracle (evs.map (fun e => (false, e))) st = st) ∧
    (∀ (oracle : Nat → Bool) (st : EngineState) (k : String),
      st.phase = MacroPhase.executing →
      (macroThreadStep oracle true st (MacroEvent.hotkeyReleased k)).1.phase = MacroPhase.idle) := by
  refine ⟨?_, ?_, ?_⟩
  · intro oracle st ev
    cases ev <;> simp [macroThreadStep]
  · intro oracle evs
    induction evs with
    | nil => intro st; rfl
    | cons e rest ih =>
      intro st
      simp [runEvents, macroThreadStep]
      cases e <;> simp [macroThreadStep, ih]
  · intro oracle st k h
    simp [macroThreadStep, execute_hotkey_release, h]

theorem c10_witness :
    (macroThreadStep oracleTrue true ⟨MacroPhase.executing, some ⟨[]⟩⟩
      (MacroEvent.hotkeyReleased "A")).1.phase = MacroPhase.idle :=
  c10_toggle_off_discards.2.2 oracleTrue ⟨MacroPhase.executing, some ⟨[]⟩⟩ "A" rfl

/-- Claim C9, counterexample: a `GamepadButtonReleased` processed while
Phase = Executing does not leave the engine state unchanged — it resets
the phase to Idle (the release handler ignores which hotkey is running). -/
theorem c9_counterexample :
    (macroThreadStep oracleTrue true ⟨MacroPhase.executing, some ⟨[]⟩⟩
        (MacroEvent.gamepadButtonReleased "A")).1 ≠
      (⟨MacroPhase.executing, some ⟨[]⟩⟩ : EngineState) := by
  decide

/-- Claim C9 (amended): a gamepad Pressed event processed while
Phase = Executing is dropped — no synthesis, state unchanged; a gamepad
Released event processed while Executing produces no synthesis but resets
the phase to Idle; a Released processed while Idle is dropped silently. -/
theorem c9_amended (oracle : Nat → Bool) (st : EngineState) (b : String) :
    (st.phase = MacroPhase.executing →
      macroThreadStep oracle true st (MacroEvent.gamepadButtonPressed b) = (st, []) ∧
      macroThreadStep oracle true st (MacroEvent.gamepadButtonReleased b) =
        ({ st with phase := MacroPhase.idle }, [])) ∧
    (st.phase = MacroPhase.idle →
      macroThreadStep oracle true st (MacroEvent.gamepadButtonReleased b) = (st, [])) := by
  constructor
  · intro h
    constructor
    · simp [macroThreadStep, execute_hotkey_action, h]
    · simp [macroThreadStep, execute_hotkey_release, h]
  · intro h
    simp [macroThreadStep, execute_hotkey_release, h]

theorem c9_witness :
    macroThreadStep oracleTrue true ⟨MacroPhase.executing, some ⟨[]⟩⟩
        (MacroEvent.gamepadButtonPressed "A") = (⟨MacroPhase.executing, some ⟨[]⟩⟩, []) ∧
    macroThreadStep oracleTrue true ⟨MacroPhase.idle, none⟩
        (MacroEvent.gamepadButtonReleased "B") = (⟨MacroPhase.idle, none⟩, []) :=
  ⟨((c9_amended oracleTrue ⟨MacroPhase.executing, some ⟨[]⟩⟩ "A").1 rfl).1,
   (c9_amended oracleTrue ⟨MacroPhase.idle, none⟩ "B").2 rfl⟩

/-- Claim C7: the speed preset fixes the per-character delay (5/10/20/50
ms for fastest/fast/normal/slow, 10 ms when unset), each mapped character
is a press+release pair with that delay slept after the press and after
the release, and typing "ab" performs exactly four sleeps of that delay. -/
theorem c7_speed_presets :
    char_delay (some "fastest") = 5 ∧ char_delay (some "fast") = 10 ∧
    char_delay (some "normal") = 20 ∧ char_delay (some "slow") = 50 ∧
    char_delay none = 10 ∧
    (∀ sp : Option String, execute_type_text oracleTrue ⟨"ab", sp⟩ =
      ([SynthEvent.keyDown 0x41, SynthEvent.sleep (char_delay sp), SynthEvent.keyUp 0x41,
        SynthEvent.sleep (char_delay sp), SynthEvent.keyDown 0x42, SynthEvent.sleep (char_delay sp),
        SynthEvent.keyUp 0x42, SynthEvent.sleep (char_delay sp)], none) ∧
      ((execute_type_text oracleTrue ⟨"ab", sp⟩).1.count (SynthEvent.sleep (char_delay sp)) = 4)) := by
  refine ⟨rfl, rfl, rfl, rfl, rfl, ?_⟩
  intro sp
  refine ⟨rfl, ?_⟩
  show ([SynthEvent.keyDown 0x41, SynthEvent.sleep (char_delay sp), SynthEvent.keyUp 0x41,
        SynthEvent.sleep (char_delay sp), SynthEvent.keyDown 0x42, SynthEvent.sleep (char_delay sp),
        SynthEvent.keyUp 0x42, SynthEvent.sleep (char_delay sp)].count (SynthEvent.sleep (char_delay sp)) = 4)
  simp [List.count_cons]
/-- With every injection succeeding, the character loop aborts at the
first unmapped character: the trace is exactly the trace of the mapped
prefix and the error is `UnsupportedCharacter`; nothing after the bad
character is typed. -/
lemma type_chars_append_unsupported (d : Nat) (c : Char) (hc : char_to_vk c = none)
    (post : List Char) :
    ∀ (pre : List Char) (idx : Nat), (∀ x ∈ pre, (char_to_vk x).isSome = true) →
      type_chars oracleTrue d idx (pre ++ c :: post) =
        ((type_chars oracleTrue d idx pre).1, (type_chars oracleTrue d idx pre).2.1,
          some Err.unsupportedCharacter) := by
  intro pre
  induction pre with
  | nil =>
    intro idx h
    simp [type_chars, hc]
  | cons p rest ih =>
    intro idx h
    obtain ⟨vk, hvk⟩ := Option.isSome_iff_exists.mp (h p (by simp))
    simp [type_chars, hvk, oracleTrue, ih (idx + 2) (fun x hx => h x (by simp [hx]))]

/-- Claim C4, counterexample: typing "a!b" aborts at the unsupported
character: the result is the events for "a" followed by the error, and
the "b" that follows is never synthesized. -/
theorem c4_counterexample :
    execute_type_text oracleTrue ⟨"a!b", none⟩ =
      ([SynthEvent.keyDown 0x41, SynthEvent.sleep 10, SynthEvent.keyUp 0x41, SynthEvent.sleep 10],
        some Err.unsupportedCharacter) ∧
    SynthEvent.keyDown 0x42 ∉ (execute_type_text oracleTrue ⟨"a!b", none⟩).1 := by
  constructor <;> decide

/-- Claim C4 (amended): the first character outside the mapped set makes
`execute_type_text` fail with the unsupported-character error and stops
the loop: the produced events are exactly those of the mapped prefix and
no later character of the text is typed. -/
theorem c4_amended (pre post : List Char) (c : Char) (sp : Option String)
    (hpre : ∀ x ∈ pre, (char_to_vk x).isSome = true) (hc : char_to_vk c = none) :
    execute_type_text oracleTrue ⟨String.mk (pre ++ c :: post), sp⟩ =
      ((execute_type_text oracleTrue ⟨String.mk pre, sp⟩).1, some Err.unsupportedCharacter) := by
  unfold execute_type_text
  simp [type_chars_append_unsupported (char_delay sp) c hc post pre 0 hpre]

theorem c4_witness :
    execute_type_text oracleTrue ⟨String.mk (['a'] ++ '!' :: ['b']), none⟩ =
      ((execute_type_text oracleTrue ⟨String.mk ['a'], none⟩).1, some Err.unsupportedCharacter) :=
  c4_amended ['a'] ['b'] '!' none (by decide) (by decide)


/-- Claim C5, counterexample: with the first injection call failing, a
two-step sequence stops at the first step: the result is the
injection-failure error with no events at all, and the second step's key
is never synthesized — the sequence is aborted, not continued. -/
theorem c5_counterexample :
    execute_sequence oracleFailFirst ⟨[Step.key "A" none none, Step.key "B" none none]⟩ =
      ([], some Err.injectionFailed) ∧
    SynthEvent.keyDown 0x42 ∉
      (execute_sequence oracleFailFirst ⟨[Step.key "A" none none, Step.key "B" none none]⟩).1 := by
  constructor <;> decide

/-- Claim C5 (amended): a failing injection call makes the step loop
return the injection-failure error immediately and the sequence is
aborted: whenever a prefix of the steps already ends in an error,
appending further steps changes neither the events performed nor the
error — the remaining steps are never executed. -/
theorem c5_amended (oracle : Nat → Bool) (xs ys : List Step) (idx idx2 : Nat)
    (tr : List SynthEvent) (e : Err)
    (h : run_steps oracle idx xs = (tr, idx2, some e)) :
    run_steps oracle idx (xs ++ ys) = (tr, idx2, some e) := by
  induction xs generalizing idx idx2 tr with
  | nil => simp [run_steps] at h
  | cons s rest ih =>
    rw [List.cons_append]
    simp only [run_steps] at h ⊢
    cases he : (run_step oracle idx s).2.2 with
    | some e2 =>
      rw [he] at h
      exact h
    | none =>
      rw [he] at h
      obtain ⟨h1, h2, h3⟩ :
          (run_step oracle idx s).1 ++ (run_steps oracle (run_step oracle idx s).2.1 rest).1 = tr ∧
          (run_steps oracle (run_step oracle idx s).2.1 rest).2.1 = idx2 ∧
          (run_steps oracle (run_step oracle idx s).2.1 rest).2.2 = some e := by
        simpa [Prod.ext_iff] using h
      have hrest : run_steps oracle (run_step oracle idx s).2.1 rest =
          ((run_steps oracle (run_step oracle idx s).2.1 rest).1,
           (run_steps oracle (run_step oracle idx s).2.1 rest).2.1, some e) := by
        rw [← h3]
      have key := ih (run_step oracle idx s).2.1
        (run_steps oracle (run_step oracle idx s).2.1 rest).2.1
        (run_steps oracle (run_step oracle idx s).2.1 rest).1 hrest
      show ((run_step oracle idx s).1 ++ (run_steps oracle (run_step oracle idx s).2.1 (rest ++ ys)).1,
          (run_steps oracle (run_step oracle idx s).2.1 (rest ++ ys)).2.1,
          (run_steps oracle (run_step oracle idx s).2.1 (rest ++ ys)).2.2) = (tr, idx2, some e)
      rw [key]
      simp [h1, h2]

theorem c5_witness :
    run_steps oracleFailFirst 0 ([Step.key "A" none none] ++ [Step.key "B" none none]) =
      ([], 1, some Err.injectionFailed) :=
  c5_amended oracleFailFirst [Step.key "A" none none] [Step.key "B" none none] 0 1 []
    Err.injectionFailed (by decide)
/-- Whether a step is a `Text` step. -/
def Step.isText : Step → Bool
  | Step.text _ _ => true
  | _ => false

/-- Trace of one sequence step as §4.4 of the spec describes it, amended:
a `Key` step resolves its symbolic name and synthesizes down for Press,
up for Release, down then up for Complete (the default); the optional
delay is slept after the synthesis for Press and Release but between the
down and the up for Complete; a `Wait` step sleeps its duration. -/
def spec_step_trace : Step → List SynthEvent
  | Step.key v d a =>
    match parse_key_string v with
    | none => []
    | some vk =>
      match a.getD KeyAction.complete with
      | KeyAction.press => SynthEvent.keyDown vk :: delay_sleep d
      | KeyAction.release => SynthEvent.keyUp vk :: delay_sleep d
      | KeyAction.complete => (SynthEvent.keyDown vk :: delay_sleep d) ++ [SynthEvent.keyUp vk]
  | Step.wait v => [SynthEvent.sleep v]
  | Step.text _ _ => []

lemma run_step_no_text (idx : Nat) (s : Step) (h : s.isText = false) :
    (run_step oracleTrue idx s).1 = spec_step_trace s ∧
    (run_step oracleTrue idx s).2.2 = none := by
  cases s with
  | key v d a =>
    cases hp : parse_key_string v with
    | none => simp [run_step, spec_step_trace, hp]
    | some vk =>
      cases ha : a.getD KeyAction.complete <;>
        simp [run_step, spec_step_trace, hp, ha, oracleTrue]
  | wait v => simp [run_step, spec_step_trace]
  | text v d => simp [Step.isText] at h

lemma run_steps_no_text (steps : List Step) :
    ∀ idx, (∀ s ∈ steps, s.isText = false) →
      (run_steps oracleTrue idx steps).1 = steps.flatMap spec_step_trace ∧
      (run_steps oracleTrue idx steps).2.2 = none := by
  induction steps with
  | nil => intro idx h; simp [run_steps]
  | cons s rest ih =>
    intro idx h
    obtain ⟨hs1, hs2⟩ := run_step_no_text idx s (h s (by simp))
    have ihr := ih (run_step oracleTrue idx s).2.1 (fun x hx => h x (by simp [hx]))
    simp only [run_steps, hs2]
    simp [hs1, ihr.1, ihr.2]

/-- Claim C6, counterexample: a single Complete key step with a delay
sleeps the delay between the down and the up, not after the step's
synthesis has completed. -/
theorem c6_counterexample :
    execute_sequence oracleTrue ⟨[Step.key "A" (some 30) none]⟩ =
      ([SynthEvent.keyDown 0x41, SynthEvent.sleep 30, SynthEvent.keyUp 0x41], none) ∧
    ([SynthEvent.keyDown 0x41, SynthEvent.sleep 30, SynthEvent.keyUp 0x41] ≠
      [SynthEvent.keyDown 0x41, SynthEvent.keyUp 0x41, SynthEvent.sleep 30]) := by
  constructor <;> decide

/-- Claim C6 (amended): with every injection succeeding, the sequence
interpreter processes Key and Wait steps in list order producing exactly
the concatenation of the per-step traces — Press emits down only,
Release emits up only, Complete (the default) emits down then up, the
optional delay is slept after the synthesis for Press/Release and
between down and up for Complete, and Wait sleeps its duration; in
particular the Shift-a press/release example synthesizes exactly 4 key
events in that order with the 50 ms wait before the third. -/
theorem c6_amended (steps : List Step) (h : ∀ s ∈ steps, s.isText = false) :
    execute_sequence oracleTrue ⟨steps⟩ = (steps.flatMap spec_step_trace, none) ∧
    execute_sequence oracleTrue
        ⟨[Step.key "Shift" none (some KeyAction.press), Step.key "a" none (some KeyAction.press),
          Step.wait 50, Step.key "a" none (some KeyAction.release),
          Step.key "Shift" none (some KeyAction.release)]⟩ =
      ([SynthEvent.keyDown 0x10, SynthEvent.keyDown 0x41, SynthEvent.sleep 50,
        SynthEvent.keyUp 0x41, SynthEvent.keyUp 0x10], none) := by
  constructor
  · obtain ⟨h1, h2⟩ := run_steps_no_text steps 0 h
    unfold execute_sequence
    rw [Prod.ext_iff]
    exact ⟨h1, by simpa [Prod.ext_iff] using h2⟩
  · decide

theorem c6_witness :
    execute_sequence oracleTrue
        ⟨[Step.key "Shift" none (some KeyAction.press), Step.key "a" none (some KeyAction.press),
          Step.wait 50, Step.key "a" none (some KeyAction.release),
          Step.key "Shift" none (some KeyAction.release)]⟩ =
      ([Step.key "Shift" none (some KeyAction.press), Step.key "a" none (some KeyAction.press),
        Step.wait 50, Step.key "a" none (some KeyAction.release),
        Step.key "Shift" none (some KeyAction.release)].flatMap spec_step_trace, none) :=
  (c6_amended
    [Step.key "Shift" none (some KeyAction.press), Step.key "a" none (some KeyAction.press),
     Step.wait 50, Step.key "a" none (some KeyAction.release),
     Step.key "Shift" none (some KeyAction.release)] (by decide)).1
/-- Every event emitted by the button loop comes from a listed mask whose
bit changed, and is Pressed exactly when the bit is set in `current`. -/
lemma mem_emit_for (cur ch : Nat) (e : GamepadEvent) :
    ∀ bs : List (Nat × String), e ∈ emit_for cur ch bs →
      ∃ bn, bn ∈ bs ∧ ch &&& bn.1 ≠ 0 ∧
        e = (if cur &&& bn.1 ≠ 0 then GamepadEvent.buttonPressed bn.2
             else GamepadEvent.buttonReleased bn.2) := by
  intro bs
  induction bs with
  | nil =>
    intro h
    simp [emit_for] at h
  | cons bn rest ih =>
    intro h
    simp only [emit_for] at h
    rcases List.mem_append.mp h with h1 | h2
    · by_cases hch : ch &&& bn.1 ≠ 0
      · refine ⟨bn, by simp, hch, ?_⟩
        rw [if_pos hch] at h1
        by_cases hcur : cur &&& bn.1 ≠ 0
        · rw [if_pos hcur] at h1
          rw [if_pos hcur]
          simpa using h1
        · rw [if_neg hcur] at h1
          rw [if_neg hcur]
          simpa using h1
      · rw [if_neg hch] at h1
        simp at h1
    · obtain ⟨bn2, hm, hch, he⟩ := ih h2
      exact ⟨bn2, by simp [hm], hch, he⟩

/-- The name of an emitted event is one of the listed button names. -/
lemma name_mem_of_mem_emit_for (cur ch : Nat) (e : GamepadEvent) (bs : List (Nat × String))
    (h : e ∈ emit_for cur ch bs) : e.name ∈ bs.map Prod.snd := by
  obtain ⟨bn, hm, _, he⟩ := mem_emit_for cur ch e bs h
  have : e.name = bn.2 := by
    by_cases hcur : cur &&& bn.1 ≠ 0
    · rw [if_pos hcur] at he
      rw [he]
      rfl
    · rw [if_neg hcur] at he
      rw [he]
      rfl
  rw [this]
  exact List.mem_map_of_mem Prod.snd hm

/-- With pairwise distinct names, a name determines its mask. -/
lemma mask_eq_of_mem_nodup :
    ∀ (bs : List (Nat × String)) (m1 m2 : Nat) (n : String),
      (m1, n) ∈ bs → (m2, n) ∈ bs → (bs.map Prod.snd).Nodup → m1 = m2 := by
  intro bs
  induction bs with
  | nil =>
    intro m1 m2 n h1 h2 hnd
    simp at h1
  | cons bn rest ih =>
    intro m1 m2 n h1 h2 hnd
    simp only [List.map_cons, List.nodup_cons] at hnd
    obtain ⟨hn1, hn2⟩ := hnd
    rcases List.mem_cons.mp h1 with e1 | r1 <;> rcases List.mem_cons.mp h2 with e2 | r2
    · rw [← e2] at e1
      exact (Prod.mk.injEq .. ▸ e1).1
    · exfalso
      apply hn1
      rw [← e1]
      simpa using List.mem_map_of_mem Prod.snd r2
    · exfalso
      apply hn1
      rw [← e2]
      simpa using List.mem_map_of_mem Prod.snd r1
    · exact ih m1 m2 n r1 r2 hn2

/-- Exactly one event is emitted for a listed button whose bit changed,
and none for a listed button whose bit did not change. -/
lemma count_emit_for (cur ch : Nat) :
    ∀ (bs : List (Nat × String)) (m : Nat) (n : String),
      (m, n) ∈ bs → (bs.map Prod.snd).Nodup →
      (emit_for cur ch bs).count
          (if cur &&& m ≠ 0 then GamepadEvent.buttonPressed n else GamepadEvent.buttonReleased n) =
        if ch &&& m ≠ 0 then 1 else 0 := by
  intro bs
  induction bs with
  | nil =>
    intro m n hm _
    simp at hm
  | cons bn rest ih =>
    intro m n hm hnd
    simp only [List.map_cons, List.nodup_cons] at hnd
    obtain ⟨hn1, hn2⟩ := hnd
    simp only [emit_for, List.count_append]
    rcases List.mem_cons.mp hm with heq | hmem
    · rw [← heq] at hn1 ⊢
      have hrest0 : (emit_for cur ch rest).count
          (if cur &&& m ≠ 0 then GamepadEvent.buttonPressed n else GamepadEvent.buttonReleased n) = 0 := by
        rw [List.count_eq_zero]
        intro hmem2
        apply hn1
        have := name_mem_of_mem_emit_for cur ch _ rest hmem2
        by_cases hcur : cur &&& m ≠ 0
        · rw [if_pos hcur] at this
          exact this
        · rw [if_neg hcur] at this
          exact this
      rw [hrest0]
      by_cases hch : ch &&& m ≠ 0
      · rw [if_pos hch, if_pos hch]
        by_cases hcur : cur &&& m ≠ 0
        · rw [if_pos hcur, if_pos hcur]
          simp
        · rw [if_neg hcur, if_neg hcur]
          simp
      · rw [if_neg hch, if_neg hch]
        simp
    · have hne : bn.2 ≠ n := by
        intro heq2
        apply hn1
        rw [heq2]
        exact List.mem_map_of_mem Prod.snd hmem
      have hseg : ((if ch &&& bn.1 ≠ 0 then
          (if cur &&& bn.1 ≠ 0 then [GamepadEvent.buttonPressed bn.2]
           else [GamepadEvent.buttonReleased bn.2]) else []) : List GamepadEvent).count
          (if cur &&& m ≠ 0 then GamepadEvent.buttonPressed n else GamepadEvent.buttonReleased n) = 0 := by
        by_cases hch : ch &&& bn.1 ≠ 0
        · rw [if_pos hch]
          by_cases hcur : cur &&& bn.1 ≠ 0 <;> by_cases hcurm : cur &&& m ≠ 0 <;>
            simp [hcur, hcurm, List.count_cons, hne]
        · rw [if_neg hch]
          simp
      rw [hseg, ih m n hmem hn2]
      simp

/-- No event at all is emitted for a listed button whose bit is unchanged. -/
lemma not_mem_emit_for_unchanged (cur ch m : Nat) (n : String) (bs : List (Nat × String))
    (hm : (m, n) ∈ bs) (hnd : (bs.map Prod.snd).Nodup) (hbit : ch &&& m = 0) :
    GamepadEvent.buttonPressed n ∉ emit_for cur ch bs ∧
    GamepadEvent.buttonReleased n ∉ emit_for cur ch bs := by
  constructor <;> intro hmem <;>
    obtain ⟨bn, hbn, hch, he⟩ := mem_emit_for cur ch _ bs hmem
  · by_cases hcur : cur &&& bn.1 ≠ 0
    · rw [if_pos hcur] at he
      have hn : n = bn.2 := by simpa using he
      have hbn2 : (bn.1, n) ∈ bs := by
        rw [hn]
        exact hbn
      have := mask_eq_of_mem_nodup bs m bn.1 n hm hbn2 hnd
      rw [← this] at hch
      exact hch hbit
    · rw [if_neg hcur] at he
      simp at he
  · by_cases hcur : cur &&& bn.1 ≠ 0
    · rw [if_pos hcur] at he
      simp at he
    · rw [if_neg hcur] at he
      have hn : n = bn.2 := by simpa using he
      have hbn2 : (bn.1, n) ∈ bs := by
        rw [hn]
        exact hbn
      have := mask_eq_of_mem_nodup bs m bn.1 n hm hbn2 hnd
      rw [← this] at hch
      exact hch hbit

/-- The 14 button names are pairwise distinct. -/
lemma xbox_buttons_nodup : (xbox_buttons.map Prod.snd).Nodup := by decide

/-- Claim C8, counterexample: on a connect transition (slot previously
disconnected, query now succeeding) with the A button held, the tick does
not reset the stored bitmask and does emit a button event: the stored
mask becomes 0x1000 and Pressed "A" is emitted. -/
theorem c8_counterexample :
    poll_slot false 0 (some 0x1000) = (true, 0x1000, [GamepadEvent.buttonPressed "A"]) ∧
    ([GamepadEvent.buttonPressed "A"] : List GamepadEvent) ≠ [] := by
  constructor <;> decide

/-- Claim C8 (amended): on a disconnect transition the stored bitmask is
reset and no events are emitted; on every tick whose query succeeds —
including a connect transition — with changed = current XOR previous,
exactly one event is emitted per listed button whose bit is in changed
(Pressed exactly when the bit is set in current) and no event is emitted
for a button whose bit is unchanged. -/
theorem c8_amended :
    (∀ prev : Nat, poll_slot true prev none = (false, 0, [])) ∧
    (∀ (conn : Bool) (prev cur m : Nat) (n : String), (m, n) ∈ xbox_buttons →
      (((cur ^^^ prev) &&& m ≠ 0 →
        ((poll_slot conn prev (some cur)).2.2).count
            (if cur &&& m ≠ 0 then GamepadEvent.buttonPressed n
             else GamepadEvent.buttonReleased n) = 1) ∧
       ((cur ^^^ prev) &&& m = 0 →
        GamepadEvent.buttonPressed n ∉ (poll_slot conn prev (some cur)).2.2 ∧
        GamepadEvent.buttonReleased n ∉ (poll_slot conn prev (some cur)).2.2))) := by
  constructor
  · intro prev
    rfl
  · intro conn prev cur m n hm
    constructor
    · intro hbit
      have hch : cur ^^^ prev ≠ 0 := by
        intro h0
        rw [h0] at hbit
        simp at hbit
      simp only [poll_slot, if_pos hch]
      have := count_emit_for cur (cur ^^^ prev) xbox_buttons m n hm xbox_buttons_nodup
      rw [if_pos hbit] at this
      exact this
    · intro hbit
      by_cases hch : cur ^^^ prev ≠ 0
      · simp only [poll_slot, if_pos hch]
        exact not_mem_emit_for_unchanged cur (cur ^^^ prev) m n xbox_buttons hm
          xbox_buttons_nodup hbit
      · simp only [poll_slot, if_neg hch]
        simp

theorem c8_witness :
    ((poll_slot true 0 (some 0x1000)).2.2).count
        (if 0x1000 &&& 0x1000 ≠ 0 then GamepadEvent.buttonPressed "A"
         else GamepadEvent.buttonReleased "A") = 1 ∧
    GamepadEvent.buttonPressed "DUp" ∉ (poll_slot true 0 (some 0x1000)).2.2 :=
  ⟨((c8_amended.2 true 0 0x1000 0x1000 "A" (by decide)).1 (by decide)),
   ((c8_amended.2 true 0 0x1000 0x0001 "DUp" (by decide)).2 (by decide)).1⟩
/-- Claim C2: for a non-synthetic event on a configured hotkey with the
toggle on, the classifier follows the decision table: non-repeat down
with phase not Idle is swallowed silently; non-repeat down with phase
Idle is swallowed and emits HotkeyPressed; up is swallowed and emits
HotkeyReleased exactly when the phase is Executing; repeat down is passed
through with no emission. -/
theorem c2_classifier_table (code : Int) (wparam flags extraInfo vk : Nat) (cfg : Config)
    (phase : MacroPhase) (hcode : 0 ≤ code) (hsyn : extraInfo ≠ 0x12345678)
    (hk : (cfg.find_hotkey (vk_to_key_name vk)).isSome = true) :
    (is_key_down wparam = true → is_key_repeat flags = false → phase ≠ MacroPhase.idle →
      keyboard_hook_proc code wparam flags extraInfo vk true (some cfg) phase =
        (HookDecision.blockEvent, none)) ∧
    (is_key_down wparam = true → is_key_repeat flags = false → phase = MacroPhase.idle →
      keyboard_hook_proc code wparam flags extraInfo vk true (some cfg) phase =
        (HookDecision.blockEvent, some (MacroEvent.hotkeyPressed (vk_to_key_name vk)))) ∧
    (is_key_up wparam = true →
      keyboard_hook_proc code wparam flags extraInfo vk true (some cfg) phase =
        (HookDecision.blockEvent,
          if phase = MacroPhase.executing then
            some (MacroEvent.hotkeyReleased (vk_to_key_name vk))
          else none)) ∧
    (is_key_down wparam = true → is_key_repeat flags = true →
      keyboard_hook_proc code wparam flags extraInfo vk true (some cfg) phase =
        (HookDecision.passEvent, none)) := by
  obtain ⟨hc, hhc⟩ := Option.isSome_iff_exists.mp hk
  refine ⟨?_, ?_, ?_, ?_⟩
  · intro hdown hrep hphase
    simp [keyboard_hook_proc, hcode, hsyn, hhc, hdown, hrep, hphase]
  · intro hdown hrep hphase
    simp [keyboard_hook_proc, hcode, hsyn, hhc, hdown, hrep, hphase]
  · intro hup
    have hup2 : wparam % 4294967296 = 0x0101 := by simpa [is_key_up] using hup
    have hdownf : is_key_down wparam = false := by simp [is_key_down, hup2]
    simp [keyboard_hook_proc, hcode, hsyn, hhc, hdownf, hup]
  · intro hdown hrep
    simp [keyboard_hook_proc, hcode, hsyn, hhc, hdown, hrep]

theorem c2_witness :
    keyboard_hook_proc 0 0x0100 0 0 0x41 true
        (some ⟨[⟨"a", "sequence", ActionParams.sequence ⟨[]⟩⟩]⟩) MacroPhase.idle =
      (HookDecision.blockEvent, some (MacroEvent.hotkeyPressed (vk_to_key_name 0x41))) :=
  (c2_classifier_table 0 0x0100 0 0 0x41 ⟨[⟨"a", "sequence", ActionParams.sequence ⟨[]⟩⟩]⟩
    MacroPhase.idle (by decide) (by decide) (by decide)).2.1 (by decide) (by decide) rfl

/-- The state returned by a Pressed dispatch from Idle always has phase
Executing, whichever way the config lookup and dispatch go. -/
lemma execute_hotkey_action_phase (oracle : Nat → Bool) (st : EngineState) (k : String)
    (h : st.phase = MacroPhase.idle) :
    (execute_hotkey_action oracle st k).1 = { st with phase := MacroPhase.executing } := by
  unfold execute_hotkey_action
  rw [if_pos h]
  repeat' split
  all_goals rfl

/-- A predicate holding on all of a left part lets `takeWhile` pass it. -/
lemma takeWhile_append_left {α : Type} (p : α → Bool) (xs ys : List α)
    (h : ∀ x ∈ xs, p x = true) : (xs ++ ys).takeWhile p = xs ++ ys.takeWhile p := by
  induction xs with
  | nil => simp
  | cons a l ih =>
    simp [List.takeWhile_cons, h a (by simp), ih (fun x hx => h x (by simp [hx]))]

/-- Claim C1, counterexample: the Idle-to-Executing transition is not an
atomic test-and-set: `execute_hotkey_action` releases the phase lock
between the locked read of Idle and the locked write of Executing (two
separate critical sections), so another access of the phase can
interleave between the test and the transition. -/
theorem c1_counterexample :
    execute_hotkey_action_fineTrace oracleTrue ⟨MacroPhase.idle, some ⟨[]⟩⟩ "A" =
      [EngineAct.lockPhase, EngineAct.readPhase MacroPhase.idle, EngineAct.unlockPhase,
       EngineAct.lockPhase, EngineAct.writePhase MacroPhase.executing, EngineAct.unlockPhase] ∧
    testAndSetAtomic
      (execute_hotkey_action_fineTrace oracleTrue ⟨MacroPhase.idle, some ⟨[]⟩⟩ "A") = false := by
  constructor <;> decide

/-- Claim C1 (amended): a Pressed event (keyboard or gamepad) processed
while the phase is Executing is dropped silently — no synthesis, state
unchanged — and one processed while Idle sets the phase to Executing
before any synthesis; this single-writer discipline on the executor
thread is what bounds execution to one macro body at a time, but the test
and the transition are two separate lock acquisitions, not one atomic
test-and-set. -/
theorem c1_amended :
    (∀ (oracle : Nat → Bool) (st : EngineState) (k b : String),
      st.phase = MacroPhase.executing →
      macroThreadStep oracle true st (MacroEvent.hotkeyPressed k) = (st, []) ∧
      macroThreadStep oracle true st (MacroEvent.gamepadButtonPressed b) = (st, [])) ∧
    (∀ (oracle : Nat → Bool) (st : EngineState) (k : String),
      st.phase = MacroPhase.idle →
      (execute_hotkey_action oracle st k).1.phase = MacroPhase.executing ∧
      phaseSetBeforeSynth (execute_hotkey_action_fineTrace oracle st k)) := by
  constructor
  · intro oracle st k b h
    constructor <;> simp [macroThreadStep, execute_hotkey_action, h]
  · intro oracle st k h
    constructor
    · rw [execute_hotkey_action_phase oracle st k h]
    · unfold execute_hotkey_action_fineTrace
      rw [if_pos h, h]
      unfold get_macro_phase_trace set_macro_phase_trace
      show EngineAct.writePhase MacroPhase.executing ∈
        List.takeWhile (fun a => ! a.isSynth)
          ([EngineAct.lockPhase, EngineAct.readPhase MacroPhase.idle, EngineAct.unlockPhase] ++
            ([EngineAct.lockPhase, EngineAct.writePhase MacroPhase.executing, EngineAct.unlockPhase] ++
              List.map EngineAct.synth (execute_hotkey_action oracle st k).2.1))
      rw [takeWhile_append_left (fun a => ! a.isSynth)
        [EngineAct.lockPhase, EngineAct.readPhase MacroPhase.idle, EngineAct.unlockPhase] _ (by decide)]
      rw [takeWhile_append_left (fun a => ! a.isSynth)
        [EngineAct.lockPhase, EngineAct.writePhase MacroPhase.executing, EngineAct.unlockPhase] _ (by decide)]
      simp

theorem c1_witness :
    macroThreadStep oracleTrue true ⟨MacroPhase.executing, some ⟨[]⟩⟩
        (MacroEvent.hotkeyPressed "A") = (⟨MacroPhase.executing, some ⟨[]⟩⟩, []) ∧
    phaseSetBeforeSynth
      (execute_hotkey_action_fineTrace oracleTrue ⟨MacroPhase.idle, some ⟨[]⟩⟩ "A") :=
  ⟨(c1_amended.1 oracleTrue ⟨MacroPhase.executing, some ⟨[]⟩⟩ "A" "B" rfl).1,
   (c1_amended.2 oracleTrue ⟨MacroPhase.idle, some ⟨[]⟩⟩ "A" rfl).2⟩
